import Mathlib

/-!
Verification of the design-approval pipeline of the aprv-ai backend.

This file is a shallow embedding, in Lean 4, of the parts of the code that
the specification's claims are about:

* the data model (`Task`, `TaskStatus`, `Review`, `Conversation`,
  `BrandGuidelineReviewResource`, `LLMPageInferenceResource`) from
  `app/models/task.py`, `app/models/review.py`, `app/models/conversation.py`
  and `app/models/llm_ready_page.py`;
* the report renderer `LLMPageInferenceResource.__str__`;
* page image extraction `ApprovalService.get_page_images_as_bytes`;
* the tenacity-wrapped inference call
  `OpenAIClient.get_openai_multi_images_response` from
  `app/services/openai_service.py`;
* the pipeline `ApprovalService.validate_design_against_all_documents`,
  `process_page_content`, `compare_design_against_page` and
  `background_process_design` from `app/services/approval_service.py`;
* the polling endpoint `process_status` from `app/api/conversation.py`.

External boundaries (PyMuPDF page contents, AWS Textract table output, the
OpenAI response per attempt, the outcome of the RAG indexing call) are inputs
of the embedding; everything downstream of those inputs is translated from
the source.  Python dynamic values that matter (truthiness, `x or y`,
f-string rendering, an unbound local) are modelled explicitly.
-/

namespace AprvAi

/-! ## Python value fragments

`LLMPageInferenceResource.__str__` and the pipeline rely on Python
truthiness and on `x or y`; we embed just enough of Python's dynamic values
to translate those expressions faithfully. -/

/-- A Python value as used in the expressions we translate:
`None`, a `bool`, an `int`, or a `str`. -/
inductive PyVal
  | pynone
  | pybool (b : Bool)
  | pyint (n : Int)
  | pystr (s : String)
deriving DecidableEq, Repr

/-- Python truthiness: `None` and `False` are falsy, `0` is falsy,
the empty string is falsy. -/
def PyVal.truthy : PyVal → Bool
  | .pynone => false
  | .pybool b => b
  | .pyint n => n != 0
  | .pystr s => s != ""

/-- Python `a or b`: returns `a` when `a` is truthy, else `b`. -/
def PyVal.pyor (a b : PyVal) : PyVal := if a.truthy then a else b

/-- `str(v)` as an f-string renders it: `str(True) = "True"`,
`str(None) = "None"`, a string renders as itself. -/
def PyVal.render : PyVal → String
  | .pynone => "None"
  | .pybool true => "True"
  | .pybool false => "False"
  | .pyint n => toString n
  | .pystr s => s

/-- An `Optional[bool]` field seen as a Python value. -/
def pyOfOptBool : Option Bool → PyVal
  | none => .pynone
  | some b => .pybool b

/-- An `Optional[int]` field seen as a Python value. -/
def pyOfOptNat : Option Nat → PyVal
  | none => .pynone
  | some n => .pyint n

/-- An `Optional[str]` field seen as a Python value. -/
def pyOfOptStr : Option String → PyVal
  | none => .pynone
  | some s => .pystr s

/-! ## Data model -/

/-- `TaskStatus` from `app/models/task.py`. -/
inductive TaskStatus
  | IN_PROGRESS
  | COMPLETE
  | FAILED
deriving DecidableEq, Repr

/-- The `.name` of a Python `Enum` member: the member's identifier.
The code stores `TaskStatus.X.name` strings in `Task.status`. -/
def TaskStatus.nameStr : TaskStatus → String
  | .IN_PROGRESS => "IN_PROGRESS"
  | .COMPLETE => "COMPLETE"
  | .FAILED => "FAILED"

/-- `Task` from `app/models/task.py` (timestamps omitted; ObjectIds as `Nat`). -/
structure Task where
  id : Nat
  conversation_id : Option Nat
  status : String
  generated_txt_id : Option Nat
deriving DecidableEq, Repr

/-- `Review` from `app/models/review.py` (timestamps omitted). -/
structure Review where
  id : Nat
  conversation_id : Nat
  page_number : Option Nat
  review_description : Option String
  guideline_achieved : Option Bool
deriving DecidableEq, Repr

/-- `Conversation`, with the fields the approval pipeline consumes
(`guidelines_id`, `design_id`, `design_process_task_id`). -/
structure Conversation where
  id : Nat
  guidelines_id : Option Nat
  design_id : Option Nat
  design_process_task_id : Option Nat
deriving DecidableEq, Repr

/-- `BrandGuidelineReviewResource` from `app/models/llm_ready_page.py`;
also the shape of the structured verdict the OpenAI client parses. -/
structure BrandGuidelineReviewResource where
  review_description : Option String
  guideline_achieved : Option Bool
deriving DecidableEq, Repr

/-- `LLMPageInferenceResource` from `app/models/llm_ready_page.py`.
`give_images` holds raw image byte blobs (bytes as `List Nat`). -/
structure LLMPageInferenceResource where
  page_number : Option Nat
  given_text : Option String
  given_tables : Option (List String)
  give_images : Option (List (List Nat))
  inference_response : Option BrandGuidelineReviewResource
deriving DecidableEq, Repr

/-! ## The report block renderer (`LLMPageInferenceResource.__str__`) -/

/-- `tables_text` local of `__str__`: joined tables when the list is truthy
and non-empty, else the initial `""`. -/
def LLMPageInferenceResource.tables_text (r : LLMPageInferenceResource) : String :=
  match r.given_tables with
  | some ts => if ts = [] then "" else String.intercalate "\n" ts
  | none => ""

/-- `infer_response` local of `__str__`:
`self.inference_response.review_description or ""` when an inference
response is present, else the initial `""`. -/
def LLMPageInferenceResource.infer_response (r : LLMPageInferenceResource) : String :=
  match r.inference_response with
  | none => ""
  | some ir => (PyVal.pyor (pyOfOptStr ir.review_description) (.pystr "")).render

/-- `review_achieved` local of `__str__`:
`self.inference_response.guideline_achieved or ""` when an inference
response is present, else the initial `""`.  Note `False or ""` and
`None or ""` both evaluate to `""`. -/
def LLMPageInferenceResource.review_achieved (r : LLMPageInferenceResource) : String :=
  match r.inference_response with
  | none => ""
  | some ir => (PyVal.pyor (pyOfOptBool ir.guideline_achieved) (.pystr "")).render

/-- `self.page_number or 'N/A'` rendered in the f-string. -/
def LLMPageInferenceResource.page_number_text (r : LLMPageInferenceResource) : String :=
  (PyVal.pyor (pyOfOptNat r.page_number) (.pystr "N/A")).render

/-- `self.given_text or 'N/A'` rendered in the f-string. -/
def LLMPageInferenceResource.given_text_text (r : LLMPageInferenceResource) : String :=
  (PyVal.pyor (pyOfOptStr r.given_text) (.pystr "N/A")).render

/-- Everything of the `__str__` f-string before the final verdict value. -/
def LLMPageInferenceResource.block_prefix (r : LLMPageInferenceResource) : String :=
  "\npage number: " ++ r.page_number_text ++ "\n" ++
  "text of " ++ r.page_number_text ++ ": " ++ r.given_text_text ++ "\n" ++
  "tables of " ++ r.page_number_text ++ ":\n" ++ r.tables_text ++ "\n" ++
  "RESULT OF DESIGN AGAINST THE TEXT OF PAGE " ++ r.page_number_text ++ ": " ++
    r.infer_response ++ "\n" ++
  "RESULT OF WHETHER OR NOT DESIGN RESPECTS PAGE " ++ r.page_number_text ++ ": "

/-- `LLMPageInferenceResource.__str__`: one report block. -/
def LLMPageInferenceResource.toStr (r : LLMPageInferenceResource) : String :=
  r.block_prefix ++ r.review_achieved ++ "\n"

/-! ## PyMuPDF boundary and page image extraction -/

/-- One entry of `page.get_images(full=True)`: we keep the xref
(item `img[0]` is all the code reads). -/
structure FitzImage where
  xref : Nat
deriving DecidableEq, Repr

/-- Result of `pdf_document.extract_image(xref)`: the code reads the
`"image"` entry (the raw image bytes). -/
structure ExtractedImage where
  image : List Nat
deriving DecidableEq, Repr

/-- A loaded PyMuPDF page: its extracted text and its embedded images. -/
structure FitzPage where
  text : String
  images : List FitzImage
deriving DecidableEq, Repr

/-- A parsed PyMuPDF document: its ordered pages, and `extract_image`
resolving an xref to the raw image bytes. -/
structure FitzDoc where
  pages : List FitzPage
  extract_image_map : Nat → ExtractedImage

/-- `doc.load_page(i)` for an in-range index. -/
def FitzDoc.loadPage (doc : FitzDoc) (i : Nat) : FitzPage :=
  doc.pages.getD i ⟨"", []⟩

/-- `ApprovalService.get_page_images_as_bytes`
(`app/services/approval_service.py`): when the page holds more than 20
embedded images, return the empty list; otherwise the bytes of every
embedded image on the page. -/
def get_page_images_as_bytes (page : FitzPage) (pdf_document : FitzDoc) : List (List Nat) :=
  let images := page.images
  if images.length > 20 then []
  else images.map (fun img => (pdf_document.extract_image_map img.xref).image)

/-! ## The retry-wrapped inference call

`OpenAIClient.get_openai_multi_images_response` is decorated with
`@retry(wait=wait_random_exponential(min=1, max=60), stop=stop_after_attempt(6))`.
The decorator carries no `retry=` predicate, so tenacity's default applies:
every exception of the body is retried, and after the 6th failed attempt a
`RetryError` is raised.  The body returns the parsed structured verdict,
returns `None` when the response has no parsed content, or raises. -/

/-- Outcome of one attempt of the body of
`get_openai_multi_images_response`: a parsed structured verdict, a response
without parsed content (the body returns `None`), or a raised exception. -/
inductive InfAttempt
  | parsed (g : BrandGuidelineReviewResource)
  | noParsed
  | raises (e : String)
deriving DecidableEq, Repr

/-- The tenacity retry loop: `fuel` remaining attempts, `i` the index of the
next attempt.  Returns the call's result together with the number of
attempts actually made.  A non-raising attempt (including one returning
`None`) ends the loop; a raising attempt consumes one unit of fuel; with no
fuel left a `RetryError` propagates. -/
def retryExec (f : Nat → InfAttempt) :
    Nat → Nat → (Except String (Option BrandGuidelineReviewResource)) × Nat
  | 0, _ => (Except.error "RetryError", 0)
  | fuel + 1, i =>
    match f i with
    | .parsed g => (Except.ok (some g), 1)
    | .noParsed => (Except.ok none, 1)
    | .raises _ =>
      let rest := retryExec f fuel (i + 1)
      (rest.1, rest.2 + 1)

/-- `stop_after_attempt(6)` from the decorator. -/
def retry_stop_attempts : Nat := 6

/-- `OpenAIClient.get_openai_multi_images_response` as seen by a caller:
the body's per-attempt outcomes are the input `f`. -/
def get_openai_multi_images_response (f : Nat → InfAttempt) :
    Except String (Option BrandGuidelineReviewResource) :=
  (retryExec f retry_stop_attempts 0).1

/-- How many attempts (API calls) the retry-wrapped call makes. -/
def inference_calls_made (f : Nat → InfAttempt) : Nat :=
  (retryExec f retry_stop_attempts 0).2

/-- `min=1` of `wait_random_exponential` in the decorator. -/
def retry_wait_min : ℚ := 1

/-- `max=60` of `wait_random_exponential` in the decorator. -/
def retry_wait_max : ℚ := 60

/-- The upper end of tenacity's `wait_exponential` range with
multiplier 1 and exponent base 2: `max(max(0, min), min(2^n, max))`. -/
def wait_upper_bound (attempt_number : Nat) : ℚ :=
  max (max 0 retry_wait_min) (min ((2 : ℚ) ^ attempt_number) retry_wait_max)

/-- tenacity's `wait_random_exponential`: a uniform draw from
`[0, high]` where `high` is the `wait_exponential` value; the draw is
modelled as `r * high` with `r` the uniform sample in `[0, 1]`. -/
def wait_random_exponential (attempt_number : Nat) (r : ℚ) : ℚ :=
  r * wait_upper_bound attempt_number

/-! ## Token counting (`app/utils/tiktoken.py`) -/

/-- The external tiktoken encoding: `encode` turns a string into tokens. -/
structure TikTokenEncoding where
  encode : String → List Nat

/-- `encoding.encode(m)` raises when `m` is `None` (the argument must be a
string). -/
def encodeMessage (enc : TikTokenEncoding) : Option String → Except String (List Nat)
  | some s => Except.ok (enc.encode s)
  | none => Except.error "TypeError: expected string"

/-- `num_tokens_from_messages` for the pinned model: 3 tokens per message
plus the encoded length of each message, plus 3 for the reply priming. -/
def num_tokens_from_messages (enc : TikTokenEncoding) :
    List (Option String) → Except String Nat
  | [] => Except.ok 3
  | m :: rest =>
    match encodeMessage enc m, num_tokens_from_messages enc rest with
    | Except.error e, _ => Except.error e
    | _, Except.error e => Except.error e
    | Except.ok toks, Except.ok n => Except.ok (3 + toks.length + n)

/-! ## The page comparator (`ApprovalService.compare_design_against_page`,
`ApprovalService.process_page_content`) -/

/-- The user prompt built by `compare_design_against_page`. -/
def comparePrompt (guideline_text guideline_tables : String) : String :=
  "The first image is the design. All other images are part of a brand licensing guideline.\n" ++
  "Design Image: the first image.\n" ++
  "Brand Guideline Images: all images after the first one.\n\n" ++
  "Brand Guideline Text:\n" ++ guideline_text ++ "\n\n" ++
  "Brand Guideline Tables:\n" ++ guideline_tables ++ "\n\n" ++
  "Please follow these steps:\n" ++
  "1. Check if the Brand Guideline Text is related to brand guidelines. If it’s not, set 'guideline_achieved' to None and stop. If it is, continue.\n" ++
  "2. review_description (string): For each part of the Brand Guideline (text, images, tables), describe if the design aligns with it.\n" ++
  "3. guideline_achieved (True, False, or None): Rate how suitable the design is based on the Brand Guideline. If the Brand Guideline isn’t relevant, return None."

/-- `ApprovalService.compare_design_against_page`: builds the prompt (absent
text/tables become the literal `"None"`), performs the retry-wrapped
inference call, and returns `(content, tokens_used)`.  The local
`tokens_used` is assigned only under `if content:`, so when the call
returned `None` the final `return content, tokens_used` raises
`UnboundLocalError`.  The design bytes and page images feed only the
external call, which the attempt oracle abstracts. -/
def compare_design_against_page (enc : TikTokenEncoding) (text : String)
    (tables : List String) (oracle : Nat → InfAttempt) :
    Except String (Option BrandGuidelineReviewResource × Nat) :=
  let guideline_text := if text = "" then "None" else text
  let guideline_tables := if tables = [] then "None" else String.intercalate "\n" tables
  let prompt := comparePrompt guideline_text guideline_tables
  match get_openai_multi_images_response oracle with
  | Except.error e => Except.error e
  | Except.ok content =>
    let tokens_used : Except String Nat :=
      match content with
      | some c => num_tokens_from_messages enc [some prompt, c.review_description]
      | none => Except.error "UnboundLocalError: tokens_used"
    match tokens_used with
    | Except.error e => Except.error e
    | Except.ok t => Except.ok (content, t)

/-- `ApprovalService.process_page_content`: compare the design against one
extracted page; on structured content, persist a `Review` and return the
page's inference resource.  The fresh `ObjectId()` of the review is
modelled by the page's index. -/
def process_page_content (enc : TikTokenEncoding) (conversation_id : Nat)
    (extracted : LLMPageInferenceResource) (oracle : Nat → InfAttempt) :
    Except String (LLMPageInferenceResource × Review) :=
  match compare_design_against_page enc (extracted.given_text.getD "")
      (extracted.given_tables.getD []) oracle with
  | Except.error e => Except.error e
  | Except.ok (content, _number_of_token) =>
    match content with
    | none => Except.error "Failed to get structured content"
    | some c =>
      let review : Review :=
        ⟨extracted.page_number.getD 0, conversation_id, extracted.page_number,
          c.review_description, c.guideline_achieved⟩
      let page_inference_resource : LLMPageInferenceResource :=
        ⟨extracted.page_number, extracted.given_text, extracted.given_tables,
          none, some c⟩
      Except.ok (page_inference_resource, review)

/-! ## Phase 1 extraction and phase 2 concurrent dispatch
(`ApprovalService.validate_design_against_all_documents`) -/

/-- AWS Textract table output, keyed by 1-based page number
(an input of the embedding, produced by `PDFExtractionService`). -/
def TablesDict := Nat → Option (List String)

/-- `text.strip() if text else ""`. -/
def pyStripText (t : String) : String := if t = "" then "" else t.trim

/-- Phase 1 for one page: load the page, take its stripped text, its capped
image list, and the Textract tables for its 1-based page number. -/
def extractPage (doc : FitzDoc) (tables_dict : TablesDict) (page_num : Nat) :
    LLMPageInferenceResource :=
  let page := doc.loadPage page_num
  let given_tables :=
    match tables_dict (page_num + 1) with
    | some ts => ts
    | none => []
  ⟨some page_num, some (pyStripText page.text), some given_tables,
    some (get_page_images_as_bytes page doc), none⟩

/-- Phase 1 over the whole document, in page order. -/
def extractPages (doc : FitzDoc) (tables_dict : TablesDict) :
    List LLMPageInferenceResource :=
  (List.range doc.pages.length).map (extractPage doc tables_dict)

/-- Per-page attempt outcomes: page index → attempt index → outcome. -/
def PageOracle := Nat → Nat → InfAttempt

/-- The comparator task dispatched for page `i`. -/
def processPageAt (enc : TikTokenEncoding) (cid : Nat) (doc : FitzDoc)
    (tables_dict : TablesDict) (oracle : PageOracle) (i : Nat) :
    Except String (LLMPageInferenceResource × Review) :=
  process_page_content enc cid (extractPage doc tables_dict i) (oracle i)

/-- The result resource of page `i`'s comparator (its input resource when
the comparator raised; only used on success paths). -/
def pageResultAt (enc : TikTokenEncoding) (cid : Nat) (doc : FitzDoc)
    (tables_dict : TablesDict) (oracle : PageOracle) (i : Nat) :
    LLMPageInferenceResource :=
  match processPageAt enc cid doc tables_dict oracle i with
  | Except.ok (r, _) => r
  | Except.error _ => extractPage doc tables_dict i

/-- Did page `i`'s comparator succeed? -/
def pageOk (enc : TikTokenEncoding) (cid : Nat) (doc : FitzDoc)
    (tables_dict : TablesDict) (oracle : PageOracle) (i : Nat) : Bool :=
  (processPageAt enc cid doc tables_dict oracle i).toOption.isSome

/-- `asyncio.gather(*tasks)`: results are returned in the order the tasks
were passed, regardless of the order in which they complete; if any task
raised, the gather raises. -/
def gatherFrom (enc : TikTokenEncoding) (cid : Nat) (doc : FitzDoc)
    (tables_dict : TablesDict) (oracle : PageOracle) :
    List Nat → Except String (List LLMPageInferenceResource)
  | [] => Except.ok []
  | i :: rest =>
    match processPageAt enc cid doc tables_dict oracle i,
        gatherFrom enc cid doc tables_dict oracle rest with
    | Except.error e, _ => Except.error e
    | Except.ok _, Except.error e => Except.error e
    | Except.ok (r, _), Except.ok rs => Except.ok (r :: rs)

/-- `ApprovalService.validate_design_against_all_documents`: parse the PDF
(raising on a parse failure), extract every page sequentially, then gather
the concurrent per-page comparators in page order. -/
def validate_design_against_all_documents (enc : TikTokenEncoding)
    (parse : Except String FitzDoc) (tables_dict : TablesDict)
    (oracle : PageOracle) (cid : Nat) :
    Except String (List LLMPageInferenceResource) :=
  match parse with
  | Except.error e => Except.error e
  | Except.ok doc =>
    gatherFrom enc cid doc tables_dict oracle (List.range doc.pages.length)

/-- The `Review` persisted by page `i`'s comparator, when it succeeded.
Comparators that raised persist nothing. -/
def pageReviewWritten (enc : TikTokenEncoding) (cid : Nat) (doc : FitzDoc)
    (tables_dict : TablesDict) (oracle : PageOracle) (i : Nat) : Option Review :=
  if i < doc.pages.length then
    match processPageAt enc cid doc tables_dict oracle i with
    | Except.ok (_, rev) => some rev
    | Except.error _ => none
  else none

/-- The reviews the run persists, in completion order `sched` (a
permutation of the page indices: `asyncio.gather` does not cancel sibling
tasks when one raises, so every dispatched comparator runs to its end). -/
def reviewsWritten (enc : TikTokenEncoding) (cid : Nat)
    (parse : Except String FitzDoc) (tables_dict : TablesDict)
    (oracle : PageOracle) (sched : List Nat) : List Review :=
  match parse with
  | Except.error _ => []
  | Except.ok doc => sched.filterMap (pageReviewWritten enc cid doc tables_dict oracle)

/-- The report text: `"\n".join(str(resource) for resource in resources)`. -/
def assembleReport (resources : List LLMPageInferenceResource) : String :=
  String.intercalate "\n" (resources.map LLMPageInferenceResource.toStr)

/-! ## The background run (`ApprovalService.background_process_design`) -/

/-- The inputs of one background run: the conversation lookup result, the
GridFS lookups of the guideline and design blobs, the PDF parse result, the
Textract tables, the per-page inference outcomes, the token encoder, and
whether `rag_service.insert_to_rag` raises. -/
structure Env where
  conversation_id : Nat
  conversation : Option Conversation
  contract_file : Option (List Nat)
  design_file : Option (List Nat)
  parse : Except String FitzDoc
  tables_dict : TablesDict
  oracle : PageOracle
  enc : TikTokenEncoding
  rag_raises : Bool
  task_id : Nat
  txt_file_id : Nat

/-- What one background run did: the task's final record, the ordered
sequence of statuses saved for it, the reviews persisted, the stored report
blob (if any), and how many inference attempts were made. -/
structure RunResult where
  task : Task
  trace : List String
  reviews : List Review
  stored_report : Option String
  inference_calls : Nat

/-- Total inference attempts across all pages of the run. -/
def totalInferenceCalls (env : Env) : Nat :=
  match env.parse with
  | Except.error _ => 0
  | Except.ok doc =>
    ((List.range doc.pages.length).map (fun i => inference_calls_made (env.oracle i))).sum

/-- `ApprovalService.background_process_design`: create the task
(`IN_PROGRESS`), fail fast when the conversation or its guideline/design
reference is missing, fetch the two blobs (raising when absent), validate
the design against every page, join the report, store it, mark the task
`COMPLETE`, then call `rag_service.insert_to_rag` — still inside the `try`,
so a raising indexing call reaches the `except` branch, which saves the
task with status `FAILED`. -/
def background_process_design (env : Env) (sched : List Nat) : RunResult :=
  let in_progress := TaskStatus.IN_PROGRESS.nameStr
  let failed := TaskStatus.FAILED.nameStr
  let complete := TaskStatus.COMPLETE.nameStr
  match env.conversation with
  | none =>
    ⟨⟨env.task_id, some env.conversation_id, failed, none⟩,
      [in_progress, failed], [], none, 0⟩
  | some conversation =>
    match conversation.guidelines_id, conversation.design_id with
    | none, _ =>
      ⟨⟨env.task_id, some env.conversation_id, failed, none⟩,
        [in_progress, failed], [], none, 0⟩
    | some _, none =>
      ⟨⟨env.task_id, some env.conversation_id, failed, none⟩,
        [in_progress, failed], [], none, 0⟩
    | some _, some _ =>
      match env.contract_file, env.design_file with
      | none, _ =>
        ⟨⟨env.task_id, some env.conversation_id, failed, none⟩,
          [in_progress, failed], [], none, 0⟩
      | some _, none =>
        ⟨⟨env.task_id, some env.conversation_id, failed, none⟩,
          [in_progress, failed], [], none, 0⟩
      | some _, some _ =>
        let revs := reviewsWritten env.enc env.conversation_id env.parse
          env.tables_dict env.oracle sched
        match validate_design_against_all_documents env.enc env.parse
            env.tables_dict env.oracle env.conversation_id with
        | Except.error _ =>
          ⟨⟨env.task_id, some env.conversation_id, failed, none⟩,
            [in_progress, failed], revs, none, totalInferenceCalls env⟩
        | Except.ok resources =>
          if resources = [] then
            -- `if not llm_inference_per_page_resources: raise`
            ⟨⟨env.task_id, some env.conversation_id, failed, none⟩,
              [in_progress, failed], revs, none, totalInferenceCalls env⟩
          else
            let text_data := assembleReport resources
            if env.rag_raises then
              ⟨⟨env.task_id, some env.conversation_id, failed, some env.txt_file_id⟩,
                [in_progress, complete, failed], revs, some text_data,
                totalInferenceCalls env⟩
            else
              ⟨⟨env.task_id, some env.conversation_id, complete, some env.txt_file_id⟩,
                [in_progress, complete], revs, some text_data,
                totalInferenceCalls env⟩

/-- Is a status terminal (`COMPLETE` or `FAILED`)? -/
def terminalStatus (s : String) : Bool :=
  s = TaskStatus.COMPLETE.nameStr || s = TaskStatus.FAILED.nameStr

/-- Monotonicity of a saved-status sequence: once a terminal status is
saved, every later save carries the same status. -/
def statusTraceMonotonic : List String → Bool
  | [] => true
  | [_] => true
  | a :: b :: rest => (!(terminalStatus a) || (b = a)) && statusTraceMonotonic (b :: rest)

/-! ## The polling endpoint (`process_status` in `app/api/conversation.py`) -/

/-- The JSON responses the endpoint produces: a status code and the task id
the body carries (absent for the error responses). -/
structure StatusResponse where
  status_code : Nat
  task_id : Option Nat
deriving DecidableEq, Repr

/-- `process_status`: 400 without a conversation id; attribute access on a
missing conversation or task raises; 202 with the task id when the task is
`IN_PROGRESS`; 200 with the task id when `COMPLETE`; any other status falls
off the end of the handler — no response value is produced (`None`). -/
def process_status (conversation_id : String)
    (find_conversation : Option Conversation) (find_task : Nat → Option Task) :
    Except String (Option StatusResponse) :=
  if conversation_id = "" then Except.ok (some ⟨400, none⟩)
  else
    match find_conversation with
    | none => Except.error "AttributeError: NoneType has no attribute design_process_task_id"
    | some conversation_of_task =>
      match conversation_of_task.design_process_task_id with
      | none => Except.ok (some ⟨400, none⟩)
      | some tid =>
        match find_task tid with
        | none => Except.error "AttributeError: NoneType has no attribute status"
        | some task_of_conversation =>
          if task_of_conversation.status = TaskStatus.IN_PROGRESS.nameStr then
            Except.ok (some ⟨202, some task_of_conversation.id⟩)
          else if task_of_conversation.status = TaskStatus.COMPLETE.nameStr then
            Except.ok (some ⟨200, some task_of_conversation.id⟩)
          else
            Except.ok none

/-! ## Theorems -/

/-- C7: for every page, if the embedded-image count exceeds the threshold
of 20, page image extraction returns an empty image list rather than
raising; otherwise it returns the bytes of every embedded image on the
page. -/
theorem c7_page_image_cap (page : FitzPage) (doc : FitzDoc) :
    (page.images.length > 20 → get_page_images_as_bytes page doc = [])
    ∧ (page.images.length ≤ 20 →
        get_page_images_as_bytes page doc
          = page.images.map (fun img => (doc.extract_image_map img.xref).image)) := by
  constructor
  · intro h
    unfold get_page_images_as_bytes
    simp only [if_pos h]
  · intro h
    unfold get_page_images_as_bytes
    rw [if_neg (by omega)]

/-- A page holding 21 embedded images. -/
def bigPage : FitzPage := ⟨"", (List.range 21).map FitzImage.mk⟩

/-- A page holding 2 embedded images with xrefs 3 and 4. -/
def smallPage : FitzPage := ⟨"", [⟨3⟩, ⟨4⟩]⟩

/-- A document whose `extract_image` returns a one-byte blob per xref. -/
def imgDoc : FitzDoc := ⟨[bigPage, smallPage], fun n => ⟨[n]⟩⟩

theorem c7_page_image_cap_witness :
    (bigPage.images.length > 20 ∧ get_page_images_as_bytes bigPage imgDoc = [])
    ∧ (smallPage.images.length ≤ 20
        ∧ get_page_images_as_bytes smallPage imgDoc = [[3], [4]]) :=
  ⟨⟨by decide, (c7_page_image_cap bigPage imgDoc).1 (by decide)⟩,
    ⟨by decide, by
      rw [(c7_page_image_cap smallPage imgDoc).2 (by decide)]
      rfl⟩⟩

/-- C10: in every assembled report block the rendered verdict value (the
`RESULT OF WHETHER OR NOT DESIGN RESPECTS PAGE ...` field) is computed as
`guideline_achieved or ""`, so it is the empty string whenever the stored
verdict is `False` (NotAchieved) or `None` (NotApplicable); only a `True`
(Achieved) verdict renders visibly, making NotAchieved and NotApplicable
indistinguishable in the report text. -/
theorem c10_verdict_collapse (r : LLMPageInferenceResource)
    (ir : BrandGuidelineReviewResource) (h : r.inference_response = some ir) :
    r.toStr = r.block_prefix ++ r.review_achieved ++ "\n"
    ∧ (ir.guideline_achieved = some true → r.review_achieved = "True")
    ∧ (ir.guideline_achieved ≠ some true → r.review_achieved = "") := by
  refine ⟨rfl, ?_, ?_⟩
  · intro hv
    simp [LLMPageInferenceResource.review_achieved, h, hv, pyOfOptBool,
      PyVal.pyor, PyVal.truthy, PyVal.render]
  · intro hv
    match hg : ir.guideline_achieved with
    | none =>
      simp [LLMPageInferenceResource.review_achieved, h, hg, pyOfOptBool,
        PyVal.pyor, PyVal.truthy, PyVal.render]
    | some true => exact absurd hg hv
    | some false =>
      simp [LLMPageInferenceResource.review_achieved, h, hg, pyOfOptBool,
        PyVal.pyor, PyVal.truthy, PyVal.render]

/-- A block whose stored verdict is `False` (NotAchieved). -/
def blockNotAchieved : LLMPageInferenceResource :=
  ⟨some 1, some "text", some [], some [], some ⟨some "misaligned", some false⟩⟩

/-- A block whose stored verdict is `None` (NotApplicable). -/
def blockNotApplicable : LLMPageInferenceResource :=
  ⟨some 2, some "text", some [], some [], some ⟨some "intro page", none⟩⟩

theorem c10_verdict_collapse_witness :
    blockNotAchieved.review_achieved = ""
    ∧ blockNotApplicable.review_achieved = "" :=
  ⟨(c10_verdict_collapse blockNotAchieved ⟨some "misaligned", some false⟩ rfl).2.2
      (by decide),
    (c10_verdict_collapse blockNotApplicable ⟨some "intro page", none⟩ rfl).2.2
      (by decide)⟩

/-! ### The retry policy (C4) -/

/-- The retry loop never makes more attempts than it has fuel. -/
theorem retryExec_calls_le (f : Nat → InfAttempt) :
    ∀ fuel i, (retryExec f fuel i).2 ≤ fuel := by
  intro fuel
  induction fuel with
  | zero => intro i; simp [retryExec]
  | succ n ih =>
    intro i
    unfold retryExec
    cases hf : f i with
    | parsed g => simp
    | noParsed => simp
    | raises e =>
      simp only
      have := ih (i + 1)
      omega

/-- With fuel left, the retry loop makes at least one attempt. -/
theorem retryExec_calls_pos (f : Nat → InfAttempt) (fuel i : Nat) :
    1 ≤ (retryExec f (fuel + 1) i).2 := by
  unfold retryExec
  cases hf : f i <;> simp

/-- When every attempt in reach raises, the loop exhausts its fuel and
propagates `RetryError`. -/
theorem retryExec_all_raise (f : Nat → InfAttempt) :
    ∀ fuel i, (∀ k, k < fuel → ∃ e, f (i + k) = InfAttempt.raises e) →
      retryExec f fuel i = (Except.error "RetryError", fuel) := by
  intro fuel
  induction fuel with
  | zero => intro i _; rfl
  | succ n ih =>
    intro i h
    obtain ⟨e, he⟩ := h 0 (by omega)
    rw [Nat.add_zero] at he
    unfold retryExec
    rw [he]
    simp only
    have hrest : retryExec f n (i + 1) = (Except.error "RetryError", n) := by
      apply ih
      intro k hk
      obtain ⟨e2, he2⟩ := h (k + 1) (by omega)
      exact ⟨e2, by rw [← he2]; congr 1; omega⟩
    rw [hrest]

/-- Attempt outcomes of a call that always fails with a non-retryable
authentication error. -/
def authFailAttempts : Nat → InfAttempt := fun _ => InfAttempt.raises "AuthenticationError"

/-- C4 counterexample: a permanent (non-retryable) authentication failure
is NOT propagated immediately — the decorator has no retry predicate, so
the call is attempted 6 times, not once; and the wait between attempts is
not bounded below by 1 second — `random.uniform(0, high)` can draw 0. -/
theorem c4_counterexample_permanent_error_retried :
    inference_calls_made authFailAttempts = 6
    ∧ inference_calls_made authFailAttempts ≠ 1
    ∧ wait_random_exponential 1 0 < retry_wait_min := by
  have := retryExec_all_raise authFailAttempts 6 0 (fun k _ => ⟨"AuthenticationError", rfl⟩)
  refine ⟨?_, ?_, ?_⟩
  · unfold inference_calls_made retry_stop_attempts
    rw [this]
  · unfold inference_calls_made retry_stop_attempts
    rw [this]
    omega
  · unfold wait_random_exponential retry_wait_min
    norm_num

/-- C4 amended: every per-page inference call is wrapped in a bounded
retry policy — at most 6 attempts, randomized exponential backoff whose
wait is a uniform draw from `[0, high]` with `high` in `[1, 60]` seconds —
but retries are attempted for EVERY exception: non-retryable failures
(malformed request, authentication) are retried like transient ones, and
propagate only after all 6 attempts, as a `RetryError`. -/
theorem c4_amended_retry_policy (f : Nat → InfAttempt) (n : Nat) (r : ℚ)
    (_hn : 1 ≤ n) (hr0 : 0 ≤ r) (hr1 : r ≤ 1) :
    inference_calls_made f ≤ 6
    ∧ (0 ≤ wait_random_exponential n r ∧ wait_random_exponential n r ≤ 60
        ∧ 1 ≤ wait_upper_bound n ∧ wait_upper_bound n ≤ 60)
    ∧ ((∀ i, i < 6 → ∃ e, f i = InfAttempt.raises e) →
        get_openai_multi_images_response f = Except.error "RetryError"
        ∧ inference_calls_made f = 6)
    ∧ ((∃ e, f 0 = InfAttempt.raises e) → 2 ≤ inference_calls_made f) := by
  have hub1 : (1 : ℚ) ≤ wait_upper_bound n := by
    unfold wait_upper_bound retry_wait_min
    exact le_trans (by norm_num) (le_max_left _ _)
  have hub60 : wait_upper_bound n ≤ 60 := by
    unfold wait_upper_bound retry_wait_min retry_wait_max
    exact max_le (by norm_num) (min_le_right _ _)
  have hub0 : (0 : ℚ) ≤ wait_upper_bound n := le_trans (by norm_num) hub1
  refine ⟨retryExec_calls_le f 6 0, ⟨?_, ?_, hub1, hub60⟩, ?_, ?_⟩
  · exact mul_nonneg hr0 hub0
  · calc r * wait_upper_bound n ≤ 1 * wait_upper_bound n :=
          mul_le_mul_of_nonneg_right hr1 hub0
      _ = wait_upper_bound n := one_mul _
      _ ≤ 60 := hub60
  · intro hall
    have := retryExec_all_raise f 6 0 (fun k hk => by
      simpa using hall k hk)
    unfold get_openai_multi_images_response inference_calls_made retry_stop_attempts
    rw [this]
    exact ⟨rfl, rfl⟩
  · intro ⟨e, he⟩
    have hstep : (retryExec f 6 0).2 = (retryExec f 5 1).2 + 1 := by
      show (retryExec f (5 + 1) 0).2 = (retryExec f 5 (0 + 1)).2 + 1
      unfold retryExec
      rw [he]
      rfl
    have hpos : 1 ≤ (retryExec f 5 1).2 := retryExec_calls_pos f 4 1
    unfold inference_calls_made retry_stop_attempts
    omega

/-- Attempt outcomes of a call that always times out. -/
def timeoutAttempts : Nat → InfAttempt := fun _ => InfAttempt.raises "APITimeoutError"

theorem c4_amended_retry_policy_witness :
    get_openai_multi_images_response timeoutAttempts = Except.error "RetryError"
    ∧ inference_calls_made timeoutAttempts = 6 :=
  (c4_amended_retry_policy timeoutAttempts 1 (1/2) (by norm_num) (by norm_num)
      (by norm_num)).2.2.1 (fun i _ => ⟨"APITimeoutError", rfl⟩)

/-! ### The fan-out pipeline (C1, C3) -/

/-- A successful comparator returns the page's resource and review with the
page number of its input resource, and the review is keyed by the run's
conversation id. -/
theorem process_page_content_ok_shape (enc : TikTokenEncoding) (cid : Nat)
    (extracted : LLMPageInferenceResource) (oracle : Nat → InfAttempt)
    (r : LLMPageInferenceResource) (rev : Review)
    (h : process_page_content enc cid extracted oracle = Except.ok (r, rev)) :
    r.page_number = extracted.page_number ∧ rev.page_number = extracted.page_number
    ∧ rev.conversation_id = cid := by
  unfold process_page_content at h
  split at h
  · exact absurd h (by simp)
  · split at h
    · exact absurd h (by simp)
    · simp only [Except.ok.injEq, Prod.mk.injEq] at h
      obtain ⟨hr, hrev⟩ := h
      subst hr
      subst hrev
      exact ⟨rfl, rfl, rfl⟩

theorem pageResultAt_of_ok (enc : TikTokenEncoding) (cid : Nat) (doc : FitzDoc)
    (tables_dict : TablesDict) (oracle : PageOracle) (i : Nat)
    (r : LLMPageInferenceResource) (rev : Review)
    (h : processPageAt enc cid doc tables_dict oracle i = Except.ok (r, rev)) :
    pageResultAt enc cid doc tables_dict oracle i = r := by
  unfold pageResultAt
  rw [h]

/-- The per-page result resource always carries its page's number: the
comparator preserves the number set by phase 1 extraction. -/
theorem pageResultAt_page_number (enc : TikTokenEncoding) (cid : Nat) (doc : FitzDoc)
    (tables_dict : TablesDict) (oracle : PageOracle) (i : Nat) :
    (pageResultAt enc cid doc tables_dict oracle i).page_number = some i := by
  unfold pageResultAt
  cases hp : processPageAt enc cid doc tables_dict oracle i with
  | error e => rfl
  | ok out =>
    obtain ⟨r, rev⟩ := out
    simp only
    have hshape := process_page_content_ok_shape enc cid
      (extractPage doc tables_dict i) (oracle i) r rev hp
    rw [hshape.1]
    rfl

theorem pageOk_eq_true_iff (enc : TikTokenEncoding) (cid : Nat) (doc : FitzDoc)
    (tables_dict : TablesDict) (oracle : PageOracle) (i : Nat) :
    pageOk enc cid doc tables_dict oracle i = true
      ↔ ∃ out, processPageAt enc cid doc tables_dict oracle i = Except.ok out := by
  unfold pageOk
  cases hp : processPageAt enc cid doc tables_dict oracle i with
  | error e => simp [Except.toOption]
  | ok out => simp [Except.toOption]

theorem pageReviewWritten_of_ok (enc : TikTokenEncoding) (cid : Nat) (doc : FitzDoc)
    (tables_dict : TablesDict) (oracle : PageOracle) (i : Nat)
    (r : LLMPageInferenceResource) (rev : Review) (hi : i < doc.pages.length)
    (h : processPageAt enc cid doc tables_dict oracle i = Except.ok (r, rev)) :
    pageReviewWritten enc cid doc tables_dict oracle i = some rev := by
  unfold pageReviewWritten
  rw [if_pos hi, h]

/-- When every page in the dispatch list succeeds, the gather returns the
per-page results in the order of the dispatch list. -/
theorem gatherFrom_all_ok (enc : TikTokenEncoding) (cid : Nat) (doc : FitzDoc)
    (tables_dict : TablesDict) (oracle : PageOracle) :
    ∀ l : List Nat, (∀ i ∈ l, pageOk enc cid doc tables_dict oracle i = true) →
      gatherFrom enc cid doc tables_dict oracle l
        = Except.ok (l.map (pageResultAt enc cid doc tables_dict oracle)) := by
  intro l
  induction l with
  | nil => intro _; rfl
  | cons i rest ih =>
    intro h
    obtain ⟨out, hout⟩ := (pageOk_eq_true_iff enc cid doc tables_dict oracle i).mp
      (h i (List.mem_cons_self i rest))
    obtain ⟨r, rev⟩ := out
    unfold gatherFrom
    rw [hout, ih (fun j hj => h j (List.mem_cons_of_mem _ hj))]
    simp only [List.map_cons, Except.ok.injEq, List.cons.injEq]
    exact ⟨(pageResultAt_of_ok enc cid doc tables_dict oracle i r rev hout).symm, trivial⟩

/-- If some page in the dispatch list fails, the gather raises. -/
theorem gatherFrom_fail (enc : TikTokenEncoding) (cid : Nat) (doc : FitzDoc)
    (tables_dict : TablesDict) (oracle : PageOracle) :
    ∀ l : List Nat, ∀ j ∈ l, pageOk enc cid doc tables_dict oracle j = false →
      ∃ e, gatherFrom enc cid doc tables_dict oracle l = Except.error e := by
  intro l
  induction l with
  | nil => intro j hj; exact absurd hj (List.not_mem_nil j)
  | cons i rest ih =>
    intro j hj hfail
    rcases List.mem_cons.mp hj with hji | hjr
    · subst hji
      have : ¬ ∃ out, processPageAt enc cid doc tables_dict oracle j = Except.ok out := by
        intro hex
        rw [(pageOk_eq_true_iff enc cid doc tables_dict oracle j).mpr hex] at hfail
        simp at hfail
      cases hp : processPageAt enc cid doc tables_dict oracle j with
      | error e =>
        refine ⟨e, ?_⟩
        unfold gatherFrom
        rw [hp]
      | ok out => exact absurd ⟨out, hp⟩ this
    · obtain ⟨e, he⟩ := ih j hjr hfail
      cases hp : processPageAt enc cid doc tables_dict oracle i with
      | error e2 =>
        refine ⟨e2, ?_⟩
        unfold gatherFrom
        rw [hp]
      | ok out =>
        obtain ⟨r, rev⟩ := out
        refine ⟨e, ?_⟩
        unfold gatherFrom
        rw [hp, he]

/-- `filterMap` over a list on which `f` is total agrees with `map`. -/
theorem filterMap_congr_some {α β : Type} (f : α → Option β) (g : α → β) :
    ∀ l : List α, (∀ a ∈ l, f a = some (g a)) → l.filterMap f = l.map g := by
  intro l
  induction l with
  | nil => intro _; rfl
  | cons a rest ih =>
    intro h
    rw [List.filterMap_cons, h a (List.mem_cons_self a rest),
      ih (fun b hb => h b (List.mem_cons_of_mem _ hb)), List.map_cons]

/-- The review of any successful page, totalized with a default. -/
def reviewAtD (enc : TikTokenEncoding) (cid : Nat) (doc : FitzDoc)
    (tables_dict : TablesDict) (oracle : PageOracle) (i : Nat) : Review :=
  (pageReviewWritten enc cid doc tables_dict oracle i).getD ⟨0, 0, none, none, none⟩

/-- C1: for a guideline document with P pages on which every per-page
inference call succeeds, the run persists exactly P Reviews whose
page_number values are distinct and equal to 0..P-1 (their multiset of
page numbers is a permutation of `0..P-1`, independent of the completion
order), and the gathered result — hence the assembled report's block
sequence — is the per-page results in ascending page_number order,
regardless of the completion order of the concurrent inference calls. -/
theorem c1_order_invariant (enc : TikTokenEncoding) (cid : Nat) (doc : FitzDoc)
    (tables_dict : TablesDict) (oracle : PageOracle) (sched sched2 : List Nat)
    (hok : ∀ i, i < doc.pages.length → pageOk enc cid doc tables_dict oracle i = true)
    (hs : sched.Perm (List.range doc.pages.length))
    (hs2 : sched2.Perm (List.range doc.pages.length)) :
    validate_design_against_all_documents enc (Except.ok doc) tables_dict oracle cid
        = Except.ok ((List.range doc.pages.length).map
            (pageResultAt enc cid doc tables_dict oracle))
    ∧ (∀ i, i < doc.pages.length →
        (pageResultAt enc cid doc tables_dict oracle i).page_number = some i)
    ∧ assembleReport ((List.range doc.pages.length).map
          (pageResultAt enc cid doc tables_dict oracle))
        = String.intercalate "\n" ((List.range doc.pages.length).map
            (fun i => (pageResultAt enc cid doc tables_dict oracle i).toStr))
    ∧ (reviewsWritten enc cid (Except.ok doc) tables_dict oracle sched).length
        = doc.pages.length
    ∧ ((reviewsWritten enc cid (Except.ok doc) tables_dict oracle sched).map
        Review.page_number).Perm ((List.range doc.pages.length).map some)
    ∧ (reviewsWritten enc cid (Except.ok doc) tables_dict oracle sched).Perm
        (reviewsWritten enc cid (Except.ok doc) tables_dict oracle sched2) := by
  have hsome : ∀ i, i < doc.pages.length →
      pageReviewWritten enc cid doc tables_dict oracle i
        = some (reviewAtD enc cid doc tables_dict oracle i)
      ∧ (reviewAtD enc cid doc tables_dict oracle i).page_number = some i := by
    intro i hi
    obtain ⟨out, hout⟩ := (pageOk_eq_true_iff enc cid doc tables_dict oracle i).mp
      (hok i hi)
    obtain ⟨r, rev⟩ := out
    have hw := pageReviewWritten_of_ok enc cid doc tables_dict oracle i r rev hi hout
    have hshape := process_page_content_ok_shape enc cid
      (extractPage doc tables_dict i) (oracle i) r rev hout
    constructor
    · unfold reviewAtD
      rw [hw]
      rfl
    · unfold reviewAtD
      rw [hw]
      simpa [extractPage] using hshape.2.1
  have hmem : ∀ i ∈ sched, i < doc.pages.length := fun i hi =>
    List.mem_range.mp (hs.subset hi)
  have hfm : reviewsWritten enc cid (Except.ok doc) tables_dict oracle sched
      = sched.map (reviewAtD enc cid doc tables_dict oracle) := by
    unfold reviewsWritten
    exact filterMap_congr_some _ _ sched (fun i hi => (hsome i (hmem i hi)).1)
  refine ⟨?_, ?_, ?_, ?_, ?_, ?_⟩
  · show gatherFrom enc cid doc tables_dict oracle (List.range doc.pages.length) = _
    exact gatherFrom_all_ok enc cid doc tables_dict oracle _
      (fun i hi => hok i (List.mem_range.mp hi))
  · exact fun i _ => pageResultAt_page_number enc cid doc tables_dict oracle i
  · unfold assembleReport
    rw [List.map_map]
    rfl
  · rw [hfm, List.length_map, hs.length_eq, List.length_range]
  · rw [hfm, List.map_map]
    have hcongr : sched.map (Review.page_number ∘ reviewAtD enc cid doc tables_dict oracle)
        = sched.map some := by
      apply List.map_congr_left
      intro i hi
      exact (hsome i (hmem i hi)).2
    rw [hcongr]
    exact hs.map some
  · rw [reviewsWritten, reviewsWritten]
    exact List.Perm.filterMap _ (hs.trans hs2.symm)

/-- A token encoder for concrete runs. -/
def encW : TikTokenEncoding := ⟨fun _ => []⟩

/-- A two-page guideline document without embedded images. -/
def docW : FitzDoc :=
  ⟨[⟨"Logo must be blue.", []⟩, ⟨"Spacing shall be 2em.", []⟩], fun n => ⟨[n]⟩⟩

/-- No Textract tables. -/
def tablesW : TablesDict := fun _ => none

/-- Every page's first inference attempt parses successfully. -/
def oracleW : PageOracle :=
  fun _ _ => InfAttempt.parsed ⟨some "The design aligns.", some true⟩

theorem c1_order_invariant_witness :
    validate_design_against_all_documents encW (Except.ok docW) tablesW oracleW 9
        = Except.ok ((List.range docW.pages.length).map
            (pageResultAt encW 9 docW tablesW oracleW))
    ∧ (pageResultAt encW 9 docW tablesW oracleW 0).page_number = some 0
    ∧ (pageResultAt encW 9 docW tablesW oracleW 1).page_number = some 1
    ∧ assembleReport ((List.range docW.pages.length).map
          (pageResultAt encW 9 docW tablesW oracleW))
        = String.intercalate "\n" ((List.range docW.pages.length).map
            (fun i => (pageResultAt encW 9 docW tablesW oracleW i).toStr))
    ∧ (reviewsWritten encW 9 (Except.ok docW) tablesW oracleW [1, 0]).length
        = docW.pages.length
    ∧ ((reviewsWritten encW 9 (Except.ok docW) tablesW oracleW [1, 0]).map
        Review.page_number).Perm ((List.range docW.pages.length).map some)
    ∧ (reviewsWritten encW 9 (Except.ok docW) tablesW oracleW [1, 0]).Perm
        (reviewsWritten encW 9 (Except.ok docW) tablesW oracleW [0, 1]) := by
  have h := c1_order_invariant encW 9 docW tablesW oracleW [1, 0] [0, 1]
    (by decide) (by decide) (by decide)
  exact ⟨h.1, h.2.1 0 (by decide), h.2.1 1 (by decide), h.2.2.1, h.2.2.2.1,
    h.2.2.2.2.1, h.2.2.2.2.2⟩

/-- C3: when at least one page's comparator fails (its retries exhausted or
its result unusable), the whole run fails — the task is saved `FAILED` —
while the Reviews persisted by the other, successful pages of the same run
remain in the store: nothing rolls them back. -/
theorem c3_page_failure_aborts_run (env : Env) (sched : List Nat)
    (conversation : Conversation) (doc : FitzDoc) (j : Nat)
    (hconv : env.conversation = some conversation)
    (hg : conversation.guidelines_id.isSome = true)
    (hd : conversation.design_id.isSome = true)
    (hcf : env.contract_file.isSome = true)
    (hdf : env.design_file.isSome = true)
    (hparse : env.parse = Except.ok doc)
    (hj : j < doc.pages.length)
    (hfail : pageOk env.enc env.conversation_id doc env.tables_dict env.oracle j = false)
    (hsched : sched.Perm (List.range doc.pages.length)) :
    (background_process_design env sched).task.status = TaskStatus.FAILED.nameStr
    ∧ (background_process_design env sched).trace
        = [TaskStatus.IN_PROGRESS.nameStr, TaskStatus.FAILED.nameStr]
    ∧ ∀ i rev,
        pageReviewWritten env.enc env.conversation_id doc env.tables_dict env.oracle i
          = some rev →
        rev ∈ (background_process_design env sched).reviews := by
  obtain ⟨e, he⟩ := gatherFrom_fail env.enc env.conversation_id doc env.tables_dict
    env.oracle (List.range doc.pages.length) j (List.mem_range.mpr hj) hfail
  have hval : validate_design_against_all_documents env.enc env.parse env.tables_dict
      env.oracle env.conversation_id = Except.error e := by
    rw [hparse]
    exact he
  obtain ⟨gid, hgid⟩ := Option.isSome_iff_exists.mp hg
  obtain ⟨did, hdid⟩ := Option.isSome_iff_exists.mp hd
  obtain ⟨cf, hcf2⟩ := Option.isSome_iff_exists.mp hcf
  obtain ⟨df, hdf2⟩ := Option.isSome_iff_exists.mp hdf
  have hbg : background_process_design env sched
      = ⟨⟨env.task_id, some env.conversation_id, TaskStatus.FAILED.nameStr, none⟩,
          [TaskStatus.IN_PROGRESS.nameStr, TaskStatus.FAILED.nameStr],
          reviewsWritten env.enc env.conversation_id env.parse env.tables_dict
            env.oracle sched,
          none, totalInferenceCalls env⟩ := by
    simp only [background_process_design, hconv, hgid, hdid, hcf2, hdf2, hval]
  refine ⟨by rw [hbg], by rw [hbg], ?_⟩
  intro i rev hrev
  have hiP : i < doc.pages.length := by
    by_contra hnot
    unfold pageReviewWritten at hrev
    rw [if_neg hnot] at hrev
    exact Option.noConfusion hrev
  have hmem : i ∈ sched := hsched.mem_iff.mpr (List.mem_range.mpr hiP)
  rw [hbg]
  show rev ∈ reviewsWritten env.enc env.conversation_id env.parse env.tables_dict
    env.oracle sched
  rw [hparse]
  show rev ∈ sched.filterMap (pageReviewWritten env.enc env.conversation_id doc
    env.tables_dict env.oracle)
  exact List.mem_filterMap.mpr ⟨i, hmem, hrev⟩

/-- A conversation with resolvable guideline and design references. -/
def convC3 : Conversation := ⟨5, some 10, some 11, none⟩

/-- A two-page document whose second page's inference always raises. -/
def docC3 : FitzDoc := ⟨[⟨"Logo must be blue.", []⟩, ⟨"", []⟩], fun n => ⟨[n]⟩⟩

/-- Page 0 parses on the first attempt; page 1 raises on every attempt. -/
def oracleC3 : PageOracle := fun i _ =>
  if i = 1 then InfAttempt.raises "APIError"
  else InfAttempt.parsed ⟨some "ok", some false⟩

/-- A run environment in which page 1 of 2 permanently fails. -/
def envC3 : Env :=
  ⟨5, some convC3, some [1], some [2], Except.ok docC3, tablesW, oracleC3, encW,
    false, 70, 80⟩

theorem c3_page_failure_aborts_run_witness :
    (background_process_design envC3 [0, 1]).task.status = TaskStatus.FAILED.nameStr
    ∧ (background_process_design envC3 [0, 1]).trace
        = [TaskStatus.IN_PROGRESS.nameStr, TaskStatus.FAILED.nameStr]
    ∧ (⟨0, 5, some 0, some "ok", some false⟩ : Review)
        ∈ (background_process_design envC3 [0, 1]).reviews := by
  have h := c3_page_failure_aborts_run envC3 [0, 1] convC3 docC3 1 rfl rfl rfl rfl rfl
    rfl (by decide) (by decide) (by decide)
  exact ⟨h.1, h.2.1, h.2.2 0 ⟨0, 5, some 0, some "ok", some false⟩ (by decide)⟩

/-- C6: a run whose conversation lacks a resolvable guideline or design
reference fails immediately: the task's statuses are `IN_PROGRESS` then
`FAILED`, no Review is written, no report is stored, and no inference call
is made. -/
theorem c6_missing_reference_fails_immediately (env : Env) (sched : List Nat)
    (conversation : Conversation)
    (hconv : env.conversation = some conversation)
    (hmiss : conversation.guidelines_id = none ∨ conversation.design_id = none) :
    (background_process_design env sched).task.status = TaskStatus.FAILED.nameStr
    ∧ (background_process_design env sched).trace
        = [TaskStatus.IN_PROGRESS.nameStr, TaskStatus.FAILED.nameStr]
    ∧ (background_process_design env sched).reviews = []
    ∧ (background_process_design env sched).stored_report = none
    ∧ (background_process_design env sched).inference_calls = 0 := by
  rcases hmiss with hm | hm
  · have hbg : background_process_design env sched
        = ⟨⟨env.task_id, some env.conversation_id, TaskStatus.FAILED.nameStr, none⟩,
            [TaskStatus.IN_PROGRESS.nameStr, TaskStatus.FAILED.nameStr], [], none, 0⟩ := by
      simp only [background_process_design, hconv, hm]
    rw [hbg]
    exact ⟨rfl, rfl, rfl, rfl, rfl⟩
  · cases hg : conversation.guidelines_id with
    | none =>
      have hbg : background_process_design env sched
          = ⟨⟨env.task_id, some env.conversation_id, TaskStatus.FAILED.nameStr, none⟩,
              [TaskStatus.IN_PROGRESS.nameStr, TaskStatus.FAILED.nameStr], [], none, 0⟩ := by
        simp only [background_process_design, hconv, hg]
      rw [hbg]
      exact ⟨rfl, rfl, rfl, rfl, rfl⟩
    | some gid =>
      have hbg : background_process_design env sched
          = ⟨⟨env.task_id, some env.conversation_id, TaskStatus.FAILED.nameStr, none⟩,
              [TaskStatus.IN_PROGRESS.nameStr, TaskStatus.FAILED.nameStr], [], none, 0⟩ := by
        simp only [background_process_design, hconv, hg, hm]
      rw [hbg]
      exact ⟨rfl, rfl, rfl, rfl, rfl⟩

/-- A conversation holding a design reference but no guideline reference. -/
def convC6 : Conversation := ⟨6, none, some 11, none⟩

/-- A run environment whose conversation lacks the guideline reference. -/
def envC6 : Env :=
  ⟨6, some convC6, some [1], some [2], Except.ok docW, tablesW, oracleW, encW,
    false, 71, 81⟩

theorem c6_missing_reference_fails_immediately_witness :
    (background_process_design envC6 [0, 1]).task.status = TaskStatus.FAILED.nameStr
    ∧ (background_process_design envC6 [0, 1]).trace
        = [TaskStatus.IN_PROGRESS.nameStr, TaskStatus.FAILED.nameStr]
    ∧ (background_process_design envC6 [0, 1]).reviews = []
    ∧ (background_process_design envC6 [0, 1]).stored_report = none
    ∧ (background_process_design envC6 [0, 1]).inference_calls = 0 :=
  c6_missing_reference_fails_immediately envC6 [0, 1] convC6 rfl (Or.inl rfl)

/-- A conversation with resolvable references, for a run whose RAG
indexing call raises. -/
def convRag : Conversation := ⟨7, some 10, some 11, none⟩

/-- A run in which every page succeeds, the report is stored, the task is
saved `COMPLETE` — and then `insert_to_rag` raises. -/
def envRag : Env :=
  ⟨7, some convRag, some [1], some [2], Except.ok docW, tablesW, oracleW, encW,
    true, 72, 82⟩

/-- C2 is violated by the code: in a run where every page succeeded, the
task is saved `COMPLETE`, and the subsequent `insert_to_rag` call raises,
the `except` branch saves the task again with status `FAILED` — the status
sequence `IN_PROGRESS, COMPLETE, FAILED` re-writes a terminal status, so
task status is not monotonic. -/
theorem c2_complete_then_failed_on_rag_error :
    (background_process_design envRag [0, 1]).trace
      = [TaskStatus.IN_PROGRESS.nameStr, TaskStatus.COMPLETE.nameStr,
          TaskStatus.FAILED.nameStr]
    ∧ statusTraceMonotonic (background_process_design envRag [0, 1]).trace = false := by
  decide

/-- C5 is violated by the code: in the same run, the report blob is already
stored and the task was saved `COMPLETE`, yet the indexing failure flips
the task's final status to `FAILED` instead of leaving it `Complete`. -/
theorem c5_rag_failure_flips_task_status :
    (background_process_design envRag [0, 1]).stored_report.isSome = true
    ∧ (background_process_design envRag [0, 1]).task.status = TaskStatus.FAILED.nameStr
    ∧ (background_process_design envRag [0, 1]).task.status ≠ TaskStatus.COMPLETE.nameStr := by
  decide

/-- A conversation whose current processing task has id 42. -/
def convC8 : Conversation := ⟨8, some 10, some 11, some 42⟩

/-- Task 42, in terminal status `FAILED`. -/
def taskC8 : Task := ⟨42, some 8, TaskStatus.FAILED.nameStr, none⟩

/-- The task lookup used by the C8 scenarios: every id resolves to the
failed task 42. -/
def findTaskC8 : Nat → Option Task := fun _ => some taskC8

/-- C8 counterexample: polled about a conversation whose task is `FAILED`,
the handler falls off the end and produces no response at all (`None`) —
the failed task is not reported with any task-identifying response. -/
theorem c8_counterexample_failed_unanswered :
    process_status "c" (some convC8) findTaskC8 = Except.ok none := rfl

/-- C8 amended: the status-polling operation returns a task-identifying
response for `IN_PROGRESS` (202) and `COMPLETE` (200); for a `FAILED` task
it returns no response (the handler returns `None`). -/
theorem c8_amended_status_polling (cid : String) (conversation : Conversation)
    (task : Task) (tid : Nat) (find_task : Nat → Option Task)
    (hcid : ¬ cid = "")
    (htid : conversation.design_process_task_id = some tid)
    (hfind : find_task tid = some task) :
    (task.status = TaskStatus.IN_PROGRESS.nameStr →
      process_status cid (some conversation) find_task
        = Except.ok (some ⟨202, some task.id⟩))
    ∧ (task.status = TaskStatus.COMPLETE.nameStr →
      process_status cid (some conversation) find_task
        = Except.ok (some ⟨200, some task.id⟩))
    ∧ (task.status = TaskStatus.FAILED.nameStr →
      process_status cid (some conversation) find_task = Except.ok none) := by
  refine ⟨?_, ?_, ?_⟩ <;> intro hst <;>
    simp [process_status, if_neg hcid, htid, hfind, hst, TaskStatus.nameStr]

theorem c8_amended_status_polling_witness :
    process_status "cv" (some convC8) findTaskC8 = Except.ok none :=
  (c8_amended_status_polling "cv" convC8 taskC8 42 findTaskC8
    (by decide) rfl rfl).2.2 rfl

/-- C9: when the retry-wrapped inference call returns `None` (no parsed
content), `compare_design_against_page` does not return a
`(None, token_count)` pair — the final `return` references the unassigned
local `tokens_used` and raises — so the comparator never succeeds and no
Review is written for that page. -/
theorem c9_none_content_raises (enc : TikTokenEncoding) (cid : Nat)
    (extracted : LLMPageInferenceResource) (oracle : Nat → InfAttempt)
    (hnone : get_openai_multi_images_response oracle = Except.ok none) :
    compare_design_against_page enc (extracted.given_text.getD "")
        (extracted.given_tables.getD []) oracle
      = Except.error "UnboundLocalError: tokens_used"
    ∧ (∀ out, process_page_content enc cid extracted oracle ≠ Except.ok out)
    ∧ ∀ (doc : FitzDoc) (tables_dict : TablesDict) (po : PageOracle) (i : Nat),
        po i = oracle →
        pageReviewWritten enc cid doc tables_dict po i = none := by
  have hcmp : ∀ t tb, compare_design_against_page enc t tb oracle
      = Except.error "UnboundLocalError: tokens_used" := by
    intro t tb
    unfold compare_design_against_page
    rw [hnone]
  have hproc : ∀ extracted2 : LLMPageInferenceResource,
      process_page_content enc cid extracted2 oracle
        = Except.error "UnboundLocalError: tokens_used" := by
    intro extracted2
    unfold process_page_content
    rw [hcmp]
  refine ⟨hcmp _ _, ?_, ?_⟩
  · intro out h
    rw [hproc] at h
    exact Except.noConfusion h
  · intro doc tables_dict po i hpo
    unfold pageReviewWritten
    have hpp : processPageAt enc cid doc tables_dict po i
        = Except.error "UnboundLocalError: tokens_used" := by
      unfold processPageAt
      rw [hpo]
      exact hproc _
    rw [hpp]
    simp

/-- Attempt outcomes of a call whose response carries no parsed content. -/
def noParseOracle : Nat → InfAttempt := fun _ => InfAttempt.noParsed

/-- An extracted page resource for the C9 witness. -/
def extractedW : LLMPageInferenceResource := ⟨some 0, some "text", some [], some [], none⟩

theorem c9_none_content_raises_witness :
    compare_design_against_page encW (extractedW.given_text.getD "")
        (extractedW.given_tables.getD []) noParseOracle
      = Except.error "UnboundLocalError: tokens_used"
    ∧ pageReviewWritten encW 3 docW tablesW (fun _ => noParseOracle) 0 = none :=
  ⟨(c9_none_content_raises encW 3 extractedW noParseOracle rfl).1,
    (c9_none_content_raises encW 3 extractedW noParseOracle rfl).2.2 docW tablesW
      (fun _ => noParseOracle) 0 rfl⟩

end AprvAi
